import Mathlib

/-!
A shallow embedding of `nlp/document.go` from jdkato/strutil: the document
construction pipeline (option application, model resolution, segmentation,
tokenization, tagging) and the `Tokens` / `Sentences` accessors.

Two levels are used:

* a value level, where Go slices and pointers are abstracted to Lean lists of
  values; this suffices for every claim about configuration resolution and
  the contents of the constructed document;
* a small heap level (`Mem`, `DocumentH`) that keeps the aliasing structure
  of the Go accessors: `Tokens` allocates a fresh backing array of copied
  `Token` values, while `Sentences` returns the internal slice itself.

The concrete `Token`, `Sentence`, `Tokenizer`, `Model` and the functions
`NewIterTokenizer`, `newPunktSentenceTokenizer`, `defaultModel` are external
collaborators: they are not part of `document.go`. They are modelled from the
spec (see the doc comments below) and, where the pipeline merely invokes
them, kept abstract as fields of a `Collabs` record over which the theorems
quantify.
-/

/-- Modelled from the spec: a Token carries at minimum a surface string, a
byte/character span, and (if tagging ran) a part-of-speech tag. The concrete
Token type is an external collaborator of `document.go`. -/
structure Token where
  text : String
  span : Nat × Nat
  tag : Option String
deriving DecidableEq, Inhabited

/-- Modelled from the spec: a Sentence is a contiguous span over the text
(start, end offsets). The concrete Sentence type is an external collaborator
of `document.go`. (`end` is a Lean keyword, so the field is named `stop`.) -/
structure Sentence where
  start : Nat
  stop : Nat
deriving DecidableEq, Inhabited

/-- Modelled from the spec: the Tokenizer interface of `document.go`, with the
single operation `Tokenize(text) -> ordered sequence of Token`. A Go
interface value that may be `nil` is embedded as `Option Tokenizer`. -/
structure Tokenizer where
  Tokenize : String → List Token

/-- Modelled from the spec: the Tagger obtained from a Model, with the single
operation `tag(tokens) -> ordered sequence of Token`. -/
structure Tagger where
  tag : List Token → List Token

/-- Modelled from the spec: a Model exposes a Tagger via `tagger`. The
optional entity-extraction data is irrelevant to `document.go` and omitted. -/
structure Model where
  tagger : Tagger

/-- The external collaborators invoked by `NewDocument` whose bodies are not
in `document.go`: `NewIterTokenizer` (the default tokenizer), the punkt
segmenter's `segment`, and `defaultModel`. The pipeline theorems quantify
over them. -/
structure Collabs where
  NewIterTokenizer : Tokenizer
  segment : String → List Sentence
  defaultModel : Bool → Model

/-- `type Document struct`: Model and Text are exported fields; `sentences`
and `tokens` are the internal storage. The Go `Model *Model` (nil-able
pointer) is `Option Model`; at the value level `[]*Token` is a list of token
values (the pointer structure is modelled in the heap section). -/
structure Document where
  Model : Option Model
  Text : String
  sentences : List Sentence
  tokens : List Token

/-- `type DocOpts struct`: Segment, Tag, and the nil-able Tokenizer
interface value. -/
structure DocOpts where
  Segment : Bool
  Tag : Bool
  Tokenizer : Option Tokenizer

/-- `type DocOpt func(doc *Document, opts *DocOpts)`: mutation of the two
records becomes explicit state passing. -/
def DocOpt : Type := Document → DocOpts → Document × DocOpts

/-- `UsingTokenizer` sets `opts.Tokenizer = include`. (`include` is a Lean
keyword, so the parameter is named `inc`.) -/
def UsingTokenizer (inc : Option Tokenizer) : DocOpt :=
  fun doc opts => (doc, { opts with Tokenizer := inc })

/-- `WithTokenization`: `if !include { opts.Tokenizer = nil }` — it writes
only when `include` is false. -/
def WithTokenization (inc : Bool) : DocOpt :=
  fun doc opts => if !inc then (doc, { opts with Tokenizer := none }) else (doc, opts)

/-- `WithTagging` sets `opts.Tag = include`. -/
def WithTagging (inc : Bool) : DocOpt :=
  fun doc opts => (doc, { opts with Tag := inc })

/-- `WithSegmentation` sets `opts.Segment = include`. -/
def WithSegmentation (inc : Bool) : DocOpt :=
  fun doc opts => (doc, { opts with Segment := inc })

/-- `UsingModel` sets `doc.Model = model` (a nil-able `*Model`). -/
def UsingModel (model : Option Model) : DocOpt :=
  fun doc opts => ({ doc with Model := model }, opts)

/-- `Document.Tokens` at the value level: the sequence of token values, in
order, that the Go method returns (it dereferences and copies each `*Token`;
the copy/aliasing structure is modelled in the heap section). -/
def Document.Tokens (doc : Document) : List Token :=
  doc.tokens

/-- `Document.Sentences` at the value level: the sentence values the returned
slice holds (`return doc.sentences`; the aliasing is modelled in the heap
section). -/
def Document.Sentences (doc : Document) : List Sentence :=
  doc.sentences

/-- `var defaultOpts = DocOpts{Tokenizer: NewIterTokenizer(), Segment: true,
Tag: true}`, parameterized by the external `NewIterTokenizer`. -/
def defaultOpts (C : Collabs) : DocOpts :=
  { Tokenizer := some C.NewIterTokenizer, Segment := true, Tag := true }

/-- `doc := Document{Text: text}`: zero values for the other fields. -/
def initDoc (text : String) : Document :=
  { Model := none, Text := text, sentences := [], tokens := [] }

/-- The option-application loop of `NewDocument`:
`for _, applyOpt := range opts { applyOpt(&doc, &base) }`. -/
def applyOpts (s : Document × DocOpts) (opts : List DocOpt) : Document × DocOpts :=
  opts.foldl (fun s o => o s.1 s.2) s

/-- `if doc.Model == nil { doc.Model = defaultModel(base.Tag) }`. -/
def resolveModel (C : Collabs) (doc : Document) (base : DocOpts) : Document :=
  if doc.Model.isNone then { doc with Model := some (C.defaultModel base.Tag) } else doc

/-- `if base.Segment { doc.sentences = segmenter.segment(text) }`. -/
def runSegment (C : Collabs) (text : String) (doc : Document) (base : DocOpts) : Document :=
  if base.Segment then { doc with sentences := C.segment text } else doc

/-- `if base.Tokenizer != nil { doc.tokens = append(doc.tokens,
base.Tokenizer.Tokenize(text)...) }`. -/
def runTokenize (text : String) (doc : Document) (base : DocOpts) : Document :=
  match base.Tokenizer with
  | some tk => { doc with tokens := doc.tokens ++ tk.Tokenize text }
  | none => doc

/-- `if base.Tag { doc.tokens = doc.Model.tagger.tag(doc.tokens) }`. The
`none` branch is unreachable after `resolveModel` (in Go it would be a nil
dereference). -/
def runTag (doc : Document) (base : DocOpts) : Document :=
  if base.Tag then
    match doc.Model with
    | some m => { doc with tokens := m.tagger.tag doc.tokens }
    | none => doc
  else doc

/-- `NewDocument(text string, opts ...DocOpt) (*Document, error)`. The local
`pipeError` is declared and never assigned in the source, so the error
component is built exactly as the source builds it. -/
def NewDocument (C : Collabs) (text : String) (opts : List DocOpt) :
    Document × Option String :=
  let pipeError : Option String := none
  let s := applyOpts (initDoc text, defaultOpts C) opts
  let doc := resolveModel C s.1 s.2
  let doc := runSegment C text doc s.2
  let doc := runTokenize text doc s.2
  let doc := runTag doc s.2
  (doc, pipeError)

/-- The recognized options of `document.go` (§4.1 of the spec), as a syntax
over which theorems can quantify: an arbitrary `DocOpt` is an arbitrary Go
closure, but the claims are about option lists built from these five. -/
inductive Opt where
  | usingTokenizer (t : Option Tokenizer)
  | withTokenization (b : Bool)
  | withTagging (b : Bool)
  | withSegmentation (b : Bool)
  | usingModel (m : Option Model)

/-- Interpretation of a recognized option as the `DocOpt` the source builds. -/
def Opt.toDocOpt : Opt → DocOpt
  | .usingTokenizer t => UsingTokenizer t
  | .withTokenization b => WithTokenization b
  | .withTagging b => WithTagging b
  | .withSegmentation b => WithSegmentation b
  | .usingModel m => UsingModel m

/-! ## Heap-level model of the accessors

The Go accessors differ in aliasing: `Tokens` allocates a fresh `[]Token`
backing array and copies `*tok` for each internal pointer, while `Sentences`
returns the internal `[]Sentence` slice itself. `Mem` is a heap with three
regions: `Token` cells (the targets of the document's `[]*Token` pointers),
backing arrays of `[]Token` slices, and backing arrays of `[]Sentence`
slices; slices are addresses into the corresponding region. -/

/-- The heap regions used by the accessor methods. -/
structure Mem where
  tokenCells : List Token
  tokenArrays : List (List Token)
  sentArrays : List (List Sentence)

/-- Dereference a `*Token`. -/
def Mem.readTok (m : Mem) (p : Nat) : Token :=
  m.tokenCells.getD p default

/-- Read the contents of a `[]Token` slice. -/
def Mem.readTokArray (m : Mem) (a : Nat) : List Token :=
  m.tokenArrays.getD a []

/-- Read the contents of a `[]Sentence` slice. -/
def Mem.readSentArray (m : Mem) (a : Nat) : List Sentence :=
  m.sentArrays.getD a []

/-- A caller's element assignment `s[i] = v` through a `[]Token` slice. -/
def Mem.writeTokArray (m : Mem) (a i : Nat) (v : Token) : Mem :=
  { m with tokenArrays := m.tokenArrays.set a ((m.tokenArrays.getD a []).set i v) }

/-- A caller's element assignment `s[i] = v` through a `[]Sentence` slice. -/
def Mem.writeSentArray (m : Mem) (a i : Nat) (v : Sentence) : Mem :=
  { m with sentArrays := m.sentArrays.set a ((m.sentArrays.getD a []).set i v) }

/-- A `Document`'s internal storage at the heap level: `sentences` is the
address of its `[]Sentence` backing array, `tokens` the list of `*Token`
pointers of its `[]*Token` slice. -/
structure DocumentH where
  sentences : Nat
  tokens : List Nat

/-- The token values the internal storage currently holds (each pointer
dereferenced, in order): what any call of `Tokens` copies out. -/
def DocumentH.tokensView (doc : DocumentH) (m : Mem) : List Token :=
  doc.tokens.map m.readTok

/-- `Document.Tokens` at the heap level: `tokens := make([]Token, 0, ...)`
followed by `append(tokens, *tok)` allocates a fresh backing array holding
the copied values; the method returns the new slice. -/
def DocumentH.TokensM (doc : DocumentH) (m : Mem) : Mem × Nat :=
  ({ m with tokenArrays := m.tokenArrays ++ [doc.tokensView m] }, m.tokenArrays.length)

/-- `Document.Sentences` at the heap level: `return doc.sentences` returns
the very slice the document stores — same backing array address, no
allocation. -/
def DocumentH.SentencesM (doc : DocumentH) (m : Mem) : Mem × Nat :=
  (m, doc.sentences)

/-! ## Concrete collaborators for closed evaluations

A small, fully computable instantiation of the external collaborators, used
to evaluate the pipeline at concrete inputs. -/

/-- A concrete tokenizer: the whole text as one token (nothing for empty
text). -/
def toyTokenizer : Tokenizer :=
  ⟨fun s => if s = "" then [] else [{ text := s, span := (0, s.length), tag := none }]⟩

/-- A concrete tagger meeting the §4.3 contract: same tokens, each annotated
with a tag. -/
def toyTagger : Tagger :=
  ⟨fun ts => ts.map (fun t => { t with tag := some "NN" })⟩

/-- A concrete collaborator set: toy tokenizer, one-sentence segmenter, and a
default model whose tagger is `toyTagger` for either Tag flag. -/
def C0 : Collabs :=
  { NewIterTokenizer := toyTokenizer
  , segment := fun s => if s = "" then [] else [{ start := 0, stop := s.length }]
  , defaultModel := fun _ => ⟨toyTagger⟩ }

/-- The state after the option-application loop of `NewDocument`, for a list
of recognized options. -/
def optState (C : Collabs) (text : String) (opts : List Opt) : Document × DocOpts :=
  applyOpts (initDoc text, defaultOpts C) (opts.map Opt.toDocOpt)

/-! ## Helper lemmas -/

theorem applyOpts_cons (s : Document × DocOpts) (o : DocOpt) (l : List DocOpt) :
    applyOpts s (o :: l) = applyOpts (o s.1 s.2) l := rfl

theorem applyOpts_append (s : Document × DocOpts) (l₁ l₂ : List DocOpt) :
    applyOpts s (l₁ ++ l₂) = applyOpts (applyOpts s l₁) l₂ :=
  List.foldl_append _ _ _ _

/-- `NewDocument` unfolded into its stages. -/
theorem NewDocument_eq (C : Collabs) (text : String) (opts : List DocOpt) :
    NewDocument C text opts =
      (runTag (runTokenize text (runSegment C text
        (resolveModel C (applyOpts (initDoc text, defaultOpts C) opts).1
          (applyOpts (initDoc text, defaultOpts C) opts).2)
        (applyOpts (initDoc text, defaultOpts C) opts).2)
        (applyOpts (initDoc text, defaultOpts C) opts).2)
        (applyOpts (initDoc text, defaultOpts C) opts).2, none) := rfl

/-- No recognized option writes the document's tokens, sentences or text. -/
theorem toDocOpt_doc_fields (o : Opt) (d : Document) (b : DocOpts) :
    (o.toDocOpt d b).1.tokens = d.tokens ∧ (o.toDocOpt d b).1.sentences = d.sentences ∧
    (o.toDocOpt d b).1.Text = d.Text := by
  cases o with
  | withTokenization bb =>
    cases bb <;>
      simp [Opt.toDocOpt, WithTokenization]
  | _ =>
    simp [Opt.toDocOpt, UsingTokenizer, WithTagging, WithSegmentation, UsingModel]

/-- Folding any list of recognized options leaves the document's tokens,
sentences and text unchanged. -/
theorem applyOpts_doc_fields (opts : List Opt) (s : Document × DocOpts) :
    (applyOpts s (opts.map Opt.toDocOpt)).1.tokens = s.1.tokens ∧
    (applyOpts s (opts.map Opt.toDocOpt)).1.sentences = s.1.sentences ∧
    (applyOpts s (opts.map Opt.toDocOpt)).1.Text = s.1.Text := by
  induction opts generalizing s with
  | nil => exact ⟨rfl, rfl, rfl⟩
  | cons o l ih =>
    have h := toDocOpt_doc_fields o s.1 s.2
    have h2 := ih (o.toDocOpt s.1 s.2)
    exact ⟨h2.1.trans h.1, h2.2.1.trans h.2.1, h2.2.2.trans h.2.2⟩

theorem resolveModel_isSome (C : Collabs) (d : Document) (b : DocOpts) :
    (resolveModel C d b).Model.isSome = true := by
  unfold resolveModel
  cases h : d.Model <;> simp [h]

theorem resolveModel_tokens (C : Collabs) (d : Document) (b : DocOpts) :
    (resolveModel C d b).tokens = d.tokens := by
  unfold resolveModel; split <;> rfl

theorem resolveModel_sentences (C : Collabs) (d : Document) (b : DocOpts) :
    (resolveModel C d b).sentences = d.sentences := by
  unfold resolveModel; split <;> rfl

theorem resolveModel_model_some (C : Collabs) (d : Document) (b : DocOpts) (m : Model)
    (h : d.Model = some m) : (resolveModel C d b).Model = some m := by
  simp [resolveModel, h]

theorem resolveModel_model_none (C : Collabs) (d : Document) (b : DocOpts)
    (h : d.Model = none) : (resolveModel C d b).Model = some (C.defaultModel b.Tag) := by
  unfold resolveModel
  rw [h]
  rfl

theorem runSegment_tokens (C : Collabs) (t : String) (d : Document) (b : DocOpts) :
    (runSegment C t d b).tokens = d.tokens := by
  unfold runSegment; split <;> rfl

theorem runSegment_Model (C : Collabs) (t : String) (d : Document) (b : DocOpts) :
    (runSegment C t d b).Model = d.Model := by
  unfold runSegment; split <;> rfl

theorem runSegment_true (C : Collabs) (t : String) (d : Document) (b : DocOpts)
    (h : b.Segment = true) : (runSegment C t d b).sentences = C.segment t := by
  unfold runSegment
  rw [h]
  rfl

theorem runSegment_false (C : Collabs) (t : String) (d : Document) (b : DocOpts)
    (h : b.Segment = false) : (runSegment C t d b).sentences = d.sentences := by
  unfold runSegment
  rw [h]
  rfl

theorem runTokenize_sentences (t : String) (d : Document) (b : DocOpts) :
    (runTokenize t d b).sentences = d.sentences := by
  unfold runTokenize
  cases b.Tokenizer <;> rfl

theorem runTokenize_Model (t : String) (d : Document) (b : DocOpts) :
    (runTokenize t d b).Model = d.Model := by
  unfold runTokenize
  cases b.Tokenizer <;> rfl

theorem runTokenize_none (t : String) (d : Document) (b : DocOpts)
    (h : b.Tokenizer = none) : runTokenize t d b = d := by
  unfold runTokenize
  rw [h]

theorem runTokenize_some (t : String) (d : Document) (b : DocOpts) (tk : Tokenizer)
    (h : b.Tokenizer = some tk) :
    (runTokenize t d b).tokens = d.tokens ++ tk.Tokenize t := by
  unfold runTokenize
  rw [h]

theorem runTag_sentences (d : Document) (b : DocOpts) :
    (runTag d b).sentences = d.sentences := by
  unfold runTag
  split
  · cases h : d.Model <;> simp [h]
  · rfl

theorem runTag_Model (d : Document) (b : DocOpts) :
    (runTag d b).Model = d.Model := by
  unfold runTag
  split
  · cases h : d.Model <;> simp [h]
  · rfl

theorem runTag_true (d : Document) (b : DocOpts) (m : Model)
    (hb : b.Tag = true) (hm : d.Model = some m) :
    (runTag d b).tokens = m.tagger.tag d.tokens := by
  unfold runTag
  rw [hb, hm]
  rfl

theorem runTag_false (d : Document) (b : DocOpts) (hb : b.Tag = false) :
    runTag d b = d := by
  unfold runTag
  rw [hb]
  rfl

/-! ## Claims -/

/-- C10: for every input text and every option list, `NewDocument` returns a
nil error: `pipeError` is declared and never assigned, and the pipeline has
no failing branch. -/
theorem C10_error_always_nil (C : Collabs) (text : String) (opts : List DocOpt) :
    (NewDocument C text opts).2 = none := rfl

/-- C1: for every input text and every recognized-option list whose final
tokenizer setting is unset while tagging is enabled, `NewDocument` returns a
Document whose `Tokens` is the empty sequence, and no error. The `hm`
hypothesis is the §4.3 tagger contract (same count of tokens) instantiated
at the empty sequence, for whichever model the pipeline resolves. -/
theorem C1_tagging_never_forces_tokenization (C : Collabs) (text : String) (opts : List Opt)
    (hTok : (optState C text opts).2.Tokenizer = none)
    (hTag : (optState C text opts).2.Tag = true)
    (hm : ∀ mo : Model,
      (resolveModel C (optState C text opts).1 (optState C text opts).2).Model = some mo →
      mo.tagger.tag [] = []) :
    (NewDocument C text (opts.map Opt.toDocOpt)).1.Tokens = [] ∧
    (NewDocument C text (opts.map Opt.toDocOpt)).2 = none := by
  refine ⟨?_, rfl⟩
  rw [NewDocument_eq]
  have hS : (resolveModel C (optState C text opts).1 (optState C text opts).2).Model.isSome :=
    resolveModel_isSome C _ _
  cases hMo : (resolveModel C (optState C text opts).1 (optState C text opts).2).Model with
  | none => rw [hMo] at hS; simp at hS
  | some mo =>
    show (runTag (runTokenize text (runSegment C text
        (resolveModel C (optState C text opts).1 (optState C text opts).2)
        (optState C text opts).2) (optState C text opts).2) (optState C text opts).2).Tokens = []
    have hModel : (runTokenize text (runSegment C text
        (resolveModel C (optState C text opts).1 (optState C text opts).2)
        (optState C text opts).2) (optState C text opts).2).Model = some mo := by
      rw [runTokenize_Model, runSegment_Model, hMo]
    have hTokens : (runTokenize text (runSegment C text
        (resolveModel C (optState C text opts).1 (optState C text opts).2)
        (optState C text opts).2) (optState C text opts).2).tokens = [] := by
      rw [runTokenize_none _ _ _ hTok, runSegment_tokens, resolveModel_tokens]
      exact (applyOpts_doc_fields opts (initDoc text, defaultOpts C)).1
    show (runTag _ _).tokens = []
    rw [runTag_true _ _ mo hTag hModel, hTokens]
    exact hm mo hMo

/-- Witness for C1 at a concrete input: `UsingTokenizer(nil)` with the
default (enabled) tagging and the concrete collaborators `C0`. -/
theorem C1_witness :
    (optState C0 "text" [Opt.usingTokenizer none]).2.Tokenizer = none ∧
    (optState C0 "text" [Opt.usingTokenizer none]).2.Tag = true ∧
    ((NewDocument C0 "text" ([Opt.usingTokenizer none].map Opt.toDocOpt)).1.Tokens = [] ∧
     (NewDocument C0 "text" ([Opt.usingTokenizer none].map Opt.toDocOpt)).2 = none) :=
  ⟨rfl, rfl,
    C1_tagging_never_forces_tokenization C0 "text" [Opt.usingTokenizer none] rfl rfl
      (fun _ h => Option.some.inj h ▸ rfl)⟩

/-! ## Which options write which settings

`WithTokenization(true)` is the one recognized option that targets a setting
without writing it: its body `if !include { opts.Tokenizer = nil }` does
nothing when `include` is true. -/

/-- Whether the option assigns the tokenizer setting. -/
def Opt.writesTokenizer : Opt → Bool
  | .usingTokenizer _ => true
  | .withTokenization b => !b
  | _ => false

/-- The tokenizer value an assigning option writes (`WithTokenization(false)`
writes `none`). -/
def Opt.tokenizerValue : Opt → Option Tokenizer
  | .usingTokenizer t => t
  | _ => none

/-- Whether the option assigns the tagging flag. -/
def Opt.writesTag : Opt → Bool
  | .withTagging _ => true
  | _ => false

/-- The tagging flag an assigning option writes. -/
def Opt.tagValue : Opt → Bool
  | .withTagging b => b
  | _ => true

/-- Whether the option assigns the segmentation flag. -/
def Opt.writesSegment : Opt → Bool
  | .withSegmentation _ => true
  | _ => false

/-- The segmentation flag an assigning option writes. -/
def Opt.segmentValue : Opt → Bool
  | .withSegmentation b => b
  | _ => true

/-- Whether the option assigns the document's model. -/
def Opt.writesModel : Opt → Bool
  | .usingModel _ => true
  | _ => false

/-- The model an assigning option writes. -/
def Opt.modelValue : Opt → Option Model
  | .usingModel m => m
  | _ => none

theorem toDocOpt_Tokenizer_skip (o : Opt) (h : o.writesTokenizer = false)
    (d : Document) (b : DocOpts) : (o.toDocOpt d b).2.Tokenizer = b.Tokenizer := by
  cases o with
  | usingTokenizer t => simp [Opt.writesTokenizer] at h
  | withTokenization bb =>
    cases bb
    · simp [Opt.writesTokenizer] at h
    · rfl
  | withTagging bb => rfl
  | withSegmentation bb => rfl
  | usingModel m => rfl

theorem toDocOpt_Tokenizer_write (o : Opt) (h : o.writesTokenizer = true)
    (d : Document) (b : DocOpts) : (o.toDocOpt d b).2.Tokenizer = o.tokenizerValue := by
  cases o with
  | usingTokenizer t => rfl
  | withTokenization bb =>
    cases bb
    · rfl
    · simp [Opt.writesTokenizer] at h
  | withTagging bb => simp [Opt.writesTokenizer] at h
  | withSegmentation bb => simp [Opt.writesTokenizer] at h
  | usingModel m => simp [Opt.writesTokenizer] at h

theorem toDocOpt_Tag_skip (o : Opt) (h : o.writesTag = false)
    (d : Document) (b : DocOpts) : (o.toDocOpt d b).2.Tag = b.Tag := by
  cases o with
  | withTagging bb => simp [Opt.writesTag] at h
  | withTokenization bb => cases bb <;> rfl
  | _ => rfl

theorem toDocOpt_Segment_skip (o : Opt) (h : o.writesSegment = false)
    (d : Document) (b : DocOpts) : (o.toDocOpt d b).2.Segment = b.Segment := by
  cases o with
  | withSegmentation bb => simp [Opt.writesSegment] at h
  | withTokenization bb => cases bb <;> rfl
  | _ => rfl

theorem toDocOpt_Model_skip (o : Opt) (h : o.writesModel = false)
    (d : Document) (b : DocOpts) : (o.toDocOpt d b).1.Model = d.Model := by
  cases o with
  | usingModel m => simp [Opt.writesModel] at h
  | withTokenization bb => cases bb <;> rfl
  | _ => rfl

theorem applyOpts_Tokenizer_skip (opts : List Opt) (s : Document × DocOpts)
    (h : ∀ o ∈ opts, o.writesTokenizer = false) :
    (applyOpts s (opts.map Opt.toDocOpt)).2.Tokenizer = s.2.Tokenizer := by
  induction opts generalizing s with
  | nil => rfl
  | cons o l ih =>
    have hrest := ih (o.toDocOpt s.1 s.2) (fun o' ho' => h o' (List.mem_cons_of_mem _ ho'))
    rw [List.map_cons, applyOpts_cons, hrest,
      toDocOpt_Tokenizer_skip o (h o (List.mem_cons_self o l)) s.1 s.2]

theorem applyOpts_Tag_skip (opts : List Opt) (s : Document × DocOpts)
    (h : ∀ o ∈ opts, o.writesTag = false) :
    (applyOpts s (opts.map Opt.toDocOpt)).2.Tag = s.2.Tag := by
  induction opts generalizing s with
  | nil => rfl
  | cons o l ih =>
    have hrest := ih (o.toDocOpt s.1 s.2) (fun o' ho' => h o' (List.mem_cons_of_mem _ ho'))
    rw [List.map_cons, applyOpts_cons, hrest,
      toDocOpt_Tag_skip o (h o (List.mem_cons_self o l)) s.1 s.2]

theorem applyOpts_Segment_skip (opts : List Opt) (s : Document × DocOpts)
    (h : ∀ o ∈ opts, o.writesSegment = false) :
    (applyOpts s (opts.map Opt.toDocOpt)).2.Segment = s.2.Segment := by
  induction opts generalizing s with
  | nil => rfl
  | cons o l ih =>
    have hrest := ih (o.toDocOpt s.1 s.2) (fun o' ho' => h o' (List.mem_cons_of_mem _ ho'))
    rw [List.map_cons, applyOpts_cons, hrest,
      toDocOpt_Segment_skip o (h o (List.mem_cons_self o l)) s.1 s.2]

theorem applyOpts_Model_skip (opts : List Opt) (s : Document × DocOpts)
    (h : ∀ o ∈ opts, o.writesModel = false) :
    (applyOpts s (opts.map Opt.toDocOpt)).1.Model = s.1.Model := by
  induction opts generalizing s with
  | nil => rfl
  | cons o l ih =>
    have hrest := ih (o.toDocOpt s.1 s.2) (fun o' ho' => h o' (List.mem_cons_of_mem _ ho'))
    rw [List.map_cons, applyOpts_cons, hrest,
      toDocOpt_Model_skip o (h o (List.mem_cons_self o l)) s.1 s.2]

/-- C2 counterexample: in `[UsingTokenizer(nil), WithTokenization(true)]` the
last option targeting the tokenizer setting does not win. By the claim (and
the spec's reading of the legacy toggle) the final `WithTokenization(true)`
should leave tokenization enabled, as it does on the default configuration
alone (second conjunct); but after `UsingTokenizer(nil)` the tokenizer stays
unset (first conjunct): the earlier option's value is the one in effect. -/
theorem C2_counterexample :
    (optState C0 "text" [Opt.usingTokenizer none, Opt.withTokenization true]).2.Tokenizer
        = none ∧
    ((optState C0 "text" [Opt.withTokenization true]).2.Tokenizer).isSome = true :=
  ⟨rfl, rfl⟩

/-- C2 amended: for the options that actually assign a setting —
`UsingTokenizer`, `WithTokenization(false)`, `WithTagging`,
`WithSegmentation`, `UsingModel` — the last assignment in call order is the
value in effect after the option loop, regardless of the options before it
and of later options that do not assign the same setting.
`WithTokenization(true)` assigns nothing: it is a no-op (final conjunct) and
is transparent to last-write-wins. -/
theorem C2_last_write_wins (C : Collabs) (text : String) (pre suf : List Opt) (o : Opt) :
    (o.writesTokenizer = true → (∀ o' ∈ suf, o'.writesTokenizer = false) →
      (optState C text (pre ++ o :: suf)).2.Tokenizer = o.tokenizerValue) ∧
    (o.writesTag = true → (∀ o' ∈ suf, o'.writesTag = false) →
      (optState C text (pre ++ o :: suf)).2.Tag = o.tagValue) ∧
    (o.writesSegment = true → (∀ o' ∈ suf, o'.writesSegment = false) →
      (optState C text (pre ++ o :: suf)).2.Segment = o.segmentValue) ∧
    (o.writesModel = true → (∀ o' ∈ suf, o'.writesModel = false) →
      (optState C text (pre ++ o :: suf)).1.Model = o.modelValue) ∧
    (∀ (d : Document) (b : DocOpts), WithTokenization true d b = (d, b)) := by
  have hsplit : optState C text (pre ++ o :: suf) =
      applyOpts (Opt.toDocOpt o (optState C text pre).1 (optState C text pre).2)
        (suf.map Opt.toDocOpt) := by
    unfold optState
    rw [List.map_append, applyOpts_append, List.map_cons, applyOpts_cons]
  refine ⟨?_, ?_, ?_, ?_, fun d b => rfl⟩
  · intro hw hsuf
    rw [hsplit, applyOpts_Tokenizer_skip suf _ hsuf, toDocOpt_Tokenizer_write o hw]
  · intro hw hsuf
    rw [hsplit, applyOpts_Tag_skip suf _ hsuf]
    cases o with
    | withTagging bb => rfl
    | _ => simp [Opt.writesTag] at hw
  · intro hw hsuf
    rw [hsplit, applyOpts_Segment_skip suf _ hsuf]
    cases o with
    | withSegmentation bb => rfl
    | _ => simp [Opt.writesSegment] at hw
  · intro hw hsuf
    rw [hsplit, applyOpts_Model_skip suf _ hsuf]
    cases o with
    | usingModel m => rfl
    | _ => simp [Opt.writesModel] at hw

/-- Witness for C2 at a concrete input: the assignment
`UsingTokenizer(toyTokenizer)` wins over an earlier `WithTokenization(false)`
and a later non-tokenizer option `WithTagging(true)`. -/
theorem C2_witness :
    (Opt.usingTokenizer (some toyTokenizer)).writesTokenizer = true ∧
    (∀ o' ∈ [Opt.withTagging true], o'.writesTokenizer = false) ∧
    (optState C0 "t" ([Opt.withTokenization false] ++
        Opt.usingTokenizer (some toyTokenizer) :: [Opt.withTagging true])).2.Tokenizer
      = (Opt.usingTokenizer (some toyTokenizer)).tokenizerValue :=
  ⟨rfl, fun o' ho' => by
      rw [List.mem_singleton] at ho'
      rw [ho']
      rfl,
    (C2_last_write_wins C0 "t" [Opt.withTokenization false] [Opt.withTagging true]
        (Opt.usingTokenizer (some toyTokenizer))).1 rfl
      (fun o' ho' => by
        rw [List.mem_singleton] at ho'
        rw [ho']
        rfl)⟩

/-- Modelled from the spec: the spec describes `WithTokenization` as a
"convenience toggle equivalent to installing/removing the default tokenizer";
this definition follows those words (install the default tokenizer when the
flag is true, remove the tokenizer when false) for the refinement comparison
of C3. -/
def specWithTokenization (C : Collabs) (b : Bool) : DocOpt :=
  fun doc opts =>
    if b then (doc, { opts with Tokenizer := some C.NewIterTokenizer })
    else (doc, { opts with Tokenizer := none })

/-- C3 counterexample: on a prior configuration whose tokenizer has been
removed, `WithTokenization(true)` leaves the tokenizer unset, while
installing the default tokenizer (the spec's description) makes it set: the
two disagree. -/
theorem C3_counterexample :
    ((WithTokenization true (initDoc "")
        { defaultOpts C0 with Tokenizer := none }).2.Tokenizer).isSome = false ∧
    ((specWithTokenization C0 true (initDoc "")
        { defaultOpts C0 with Tokenizer := none }).2.Tokenizer).isSome = true :=
  ⟨rfl, rfl⟩

/-- C3 amended: `WithTokenization(false)` is equivalent to removing the
tokenizer (`UsingTokenizer(nil)`) on every prior configuration state;
`WithTokenization(true)` does not install anything — it is a no-op, and
agrees with installing the default tokenizer only on states whose tokenizer
is already the default. -/
theorem C3_legacy_toggle (C : Collabs) (d : Document) (b : DocOpts) :
    WithTokenization false d b = UsingTokenizer none d b ∧
    WithTokenization true d b = (d, b) ∧
    (b.Tokenizer = some C.NewIterTokenizer →
      WithTokenization true d b = specWithTokenization C true d b) := by
  refine ⟨rfl, rfl, fun h => ?_⟩
  show (d, b) = (d, { b with Tokenizer := some C.NewIterTokenizer })
  rw [← h]

/-- Witness for C3 at a concrete input: on the default configuration (whose
tokenizer is the default), the no-op `WithTokenization(true)` and the spec's
"install the default tokenizer" agree. -/
theorem C3_witness :
    (defaultOpts C0).Tokenizer = some C0.NewIterTokenizer ∧
    WithTokenization true (initDoc "t") (defaultOpts C0) =
      specWithTokenization C0 true (initDoc "t") (defaultOpts C0) :=
  ⟨rfl, (C3_legacy_toggle C0 (initDoc "t") (defaultOpts C0)).2.2 rfl⟩

/-! ## Defensive copies: the accessor claims -/

theorem getD_set_self_or {α : Type} (l : List α) (n : Nat) (x d : α) :
    (l.set n x).getD n d = if n < l.length then x else d := by
  by_cases h : n < l.length
  · rw [List.getD_eq_getElem?_getD, List.getElem?_set_self h, if_pos h]
    rfl
  · rw [List.set_eq_of_length_le (Nat.le_of_not_lt h), if_neg h,
      List.getD_eq_getElem?_getD, List.getElem?_eq_none (Nat.le_of_not_lt h)]
    rfl

/-- C6: `Tokens` returns a defensive copy. The method allocates a fresh
backing array holding the dereferenced token values (first conjunct); a
caller's element assignment through the returned slice changes neither the
token values a subsequent `Tokens` call observes (second conjunct) nor the
document's internal token cells (third conjunct). -/
theorem C6_tokens_defensive_copy (m : Mem) (doc : DocumentH) (i : Nat) (v : Token) :
    (doc.TokensM m).1.readTokArray (doc.TokensM m).2 = doc.tokensView m ∧
    doc.tokensView (Mem.writeTokArray (doc.TokensM m).1 (doc.TokensM m).2 i v)
      = doc.tokensView m ∧
    (Mem.writeTokArray (doc.TokensM m).1 (doc.TokensM m).2 i v).tokenCells
      = m.tokenCells := by
  refine ⟨?_, rfl, rfl⟩
  show Mem.readTokArray
      { m with tokenArrays := m.tokenArrays ++ [doc.tokensView m] }
      m.tokenArrays.length = doc.tokensView m
  unfold Mem.readTokArray
  rw [List.getD_eq_getElem?_getD]
  simp [List.getElem?_concat_length]

/-- A concrete heap for the C5 counterexample: one sentence array, aliased by
the document below. -/
def mC5 : Mem :=
  { tokenCells := [], tokenArrays := [], sentArrays := [[{ start := 0, stop := 5 }]] }

/-- The document whose `sentences` slice points at `mC5`'s array. -/
def docC5 : DocumentH := { sentences := 0, tokens := [] }

/-- C5 counterexample: `Sentences` does not return a defensive copy. The
returned slice is the internal one (first conjunct); assigning through it
changes what a subsequent `Sentences` call observes, from `[(0,5)]` to
`[(1,2)]`. -/
theorem C5_counterexample :
    (docC5.SentencesM mC5).2 = docC5.sentences ∧
    Mem.readSentArray mC5 docC5.sentences = [{ start := 0, stop := 5 }] ∧
    Mem.readSentArray
        (Mem.writeSentArray mC5 (docC5.SentencesM mC5).2 0 { start := 1, stop := 2 })
        docC5.sentences = [{ start := 1, stop := 2 }] ∧
    ([{ start := 1, stop := 2 }] : List Sentence) ≠ [{ start := 0, stop := 5 }] :=
  ⟨rfl, rfl, rfl, by decide⟩

/-- C5 amended: `Sentences` returns the internal slice itself, not a copy:
the returned slice is the document's own backing-array address (first
conjunct), no allocation happens (second conjunct), and a caller's element
assignment through the returned slice is observed by a subsequent
`Sentences` read (third conjunct). -/
theorem C5_sentences_alias (m : Mem) (doc : DocumentH) (i : Nat) (v : Sentence) :
    (doc.SentencesM m).2 = doc.sentences ∧
    (doc.SentencesM m).1 = m ∧
    Mem.readSentArray (Mem.writeSentArray m (doc.SentencesM m).2 i v) doc.sentences
      = (Mem.readSentArray m doc.sentences).set i v := by
  refine ⟨rfl, rfl, ?_⟩
  show Mem.readSentArray (Mem.writeSentArray m doc.sentences i v) doc.sentences
      = (Mem.readSentArray m doc.sentences).set i v
  unfold Mem.readSentArray Mem.writeSentArray
  rw [getD_set_self_or]
  split
  · rfl
  · next h =>
    rw [List.getD_eq_getElem?_getD, List.getElem?_eq_none (Nat.le_of_not_lt h)]
    rfl

/-! ## Model resolution, tagging, and empty input -/

/-- `NewDocument`'s document component, decomposed into stages, for a list of
recognized options phrased through `optState`. -/
theorem NewDocument_doc_recognized (C : Collabs) (text : String) (opts : List Opt) :
    (NewDocument C text (opts.map Opt.toDocOpt)).1 =
      runTag (runTokenize text (runSegment C text
        (resolveModel C (optState C text opts).1 (optState C text opts).2)
        (optState C text opts).2)
        (optState C text opts).2)
        (optState C text opts).2 := rfl

/-- C7: the constructed Document's Model is never absent: a (non-nil) model
installed by an option is kept, and otherwise the default model,
parameterized by the final value of the tagging setting, is selected. -/
theorem C7_model_resolution (C : Collabs) (text : String) (opts : List Opt) :
    ((NewDocument C text (opts.map Opt.toDocOpt)).1.Model).isSome = true ∧
    (∀ mo : Model, (optState C text opts).1.Model = some mo →
      (NewDocument C text (opts.map Opt.toDocOpt)).1.Model = some mo) ∧
    ((optState C text opts).1.Model = none →
      (NewDocument C text (opts.map Opt.toDocOpt)).1.Model
        = some (C.defaultModel (optState C text opts).2.Tag)) := by
  have hM : (NewDocument C text (opts.map Opt.toDocOpt)).1.Model
      = (resolveModel C (optState C text opts).1 (optState C text opts).2).Model := by
    rw [NewDocument_doc_recognized, runTag_Model, runTokenize_Model, runSegment_Model]
  refine ⟨?_, ?_, ?_⟩
  · rw [hM]
    exact resolveModel_isSome C _ _
  · intro mo h
    rw [hM]
    exact resolveModel_model_some C _ _ mo h
  · intro h
    rw [hM]
    exact resolveModel_model_none C _ _ h

/-- A concrete model used to exercise the option-installed branch of C7. -/
def M0 : Model := ⟨⟨fun ts => ts⟩⟩

/-- Witness for C7 at concrete inputs: an option-installed model is kept, and
with no options the default model for the default tagging setting is
selected. -/
theorem C7_witness :
    (optState C0 "t" [Opt.usingModel (some M0)]).1.Model = some M0 ∧
    (NewDocument C0 "t" ([Opt.usingModel (some M0)].map Opt.toDocOpt)).1.Model = some M0 ∧
    (optState C0 "t" []).1.Model = none ∧
    (NewDocument C0 "t" ([].map Opt.toDocOpt)).1.Model
      = some (C0.defaultModel (optState C0 "t" []).2.Tag) :=
  ⟨rfl, (C7_model_resolution C0 "t" [Opt.usingModel (some M0)]).2.1 M0 rfl, rfl,
    (C7_model_resolution C0 "t" []).2.2 rfl⟩

/-- The §4.3 Tagger interface contract: the tagger returns the same count and
order of tokens (same surface strings and spans, in order), each now
annotated with a tag. -/
def TaggerContract (tg : Tagger) : Prop :=
  ∀ ts : List Token,
    (tg.tag ts).map (fun t => (t.text, t.span)) = ts.map (fun t => (t.text, t.span)) ∧
    ∀ t ∈ tg.tag ts, t.tag.isSome = true

/-- C8: if tagging and tokenization are both enabled and the resolved model's
tagger satisfies its interface contract, every token of the resulting
Document carries a tag, and token count and order agree with the tokenizer's
output before tagging. -/
theorem C8_tagged_tokens (C : Collabs) (text : String) (opts : List Opt) (tk : Tokenizer)
    (hTok : (optState C text opts).2.Tokenizer = some tk)
    (hTag : (optState C text opts).2.Tag = true)
    (hc : ∀ mo : Model,
      (resolveModel C (optState C text opts).1 (optState C text opts).2).Model = some mo →
      TaggerContract mo.tagger) :
    (∀ t ∈ (NewDocument C text (opts.map Opt.toDocOpt)).1.Tokens, t.tag.isSome = true) ∧
    ((NewDocument C text (opts.map Opt.toDocOpt)).1.Tokens).map (fun t => (t.text, t.span))
      = (tk.Tokenize text).map (fun t => (t.text, t.span)) ∧
    ((NewDocument C text (opts.map Opt.toDocOpt)).1.Tokens).length
      = (tk.Tokenize text).length := by
  have hS : (resolveModel C (optState C text opts).1 (optState C text opts).2).Model.isSome :=
    resolveModel_isSome C _ _
  cases hMo : (resolveModel C (optState C text opts).1 (optState C text opts).2).Model with
  | none =>
    rw [hMo] at hS
    simp at hS
  | some mo =>
    have hModel : (runTokenize text (runSegment C text
        (resolveModel C (optState C text opts).1 (optState C text opts).2)
        (optState C text opts).2) (optState C text opts).2).Model = some mo := by
      rw [runTokenize_Model, runSegment_Model, hMo]
    have hTokens : (runTokenize text (runSegment C text
        (resolveModel C (optState C text opts).1 (optState C text opts).2)
        (optState C text opts).2) (optState C text opts).2).tokens = tk.Tokenize text := by
      rw [runTokenize_some _ _ _ tk hTok, runSegment_tokens, resolveModel_tokens]
      have h0 : (optState C text opts).1.tokens = [] :=
        (applyOpts_doc_fields opts (initDoc text, defaultOpts C)).1
      rw [h0]
      exact List.nil_append _
    have hfin : (NewDocument C text (opts.map Opt.toDocOpt)).1.Tokens
        = mo.tagger.tag (tk.Tokenize text) := by
      rw [NewDocument_doc_recognized]
      show (runTag _ _).tokens = _
      rw [runTag_true _ _ mo hTag hModel, hTokens]
    have hcc := hc mo hMo (tk.Tokenize text)
    refine ⟨?_, ?_, ?_⟩
    · rw [hfin]
      exact hcc.2
    · rw [hfin]
      exact hcc.1
    · rw [hfin]
      have := congrArg List.length hcc.1
      simpa using this

/-- The toy tagger satisfies the §4.3 contract. -/
theorem toyTagger_contract : TaggerContract toyTagger := by
  intro ts
  constructor
  · simp [toyTagger, List.map_map]
  · intro t ht
    simp [toyTagger] at ht
    obtain ⟨u, _, rfl⟩ := ht
    rfl

/-- Witness for C8 at a concrete input: defaults (tagging and tokenization
both on) with the concrete collaborators `C0`. -/
theorem C8_witness :
    (optState C0 "hi" []).2.Tokenizer = some toyTokenizer ∧
    (optState C0 "hi" []).2.Tag = true ∧
    ((∀ t ∈ (NewDocument C0 "hi" ([].map Opt.toDocOpt)).1.Tokens, t.tag.isSome = true) ∧
     ((NewDocument C0 "hi" ([].map Opt.toDocOpt)).1.Tokens).map (fun t => (t.text, t.span))
       = (toyTokenizer.Tokenize "hi").map (fun t => (t.text, t.span)) ∧
     ((NewDocument C0 "hi" ([].map Opt.toDocOpt)).1.Tokens).length
       = (toyTokenizer.Tokenize "hi").length) :=
  ⟨rfl, rfl,
    C8_tagged_tokens C0 "hi" [] toyTokenizer rfl rfl
      (fun mo h => by
        rw [← Option.some.inj h]
        exact toyTagger_contract)⟩

/-- C9: empty input is not an error: with the default configuration,
`NewDocument("")` returns no error and — assuming the segmenter and the
default tokenizer return empty sequences for empty text, and the default
model's tagger meets its §4.3 count contract at the empty sequence (tagging
is on by default, so the empty token list passes through the tagger) — both
`Sentences` and `Tokens` are empty. -/
theorem C9_empty_input (C : Collabs)
    (hseg : C.segment "" = [])
    (htok : C.NewIterTokenizer.Tokenize "" = [])
    (htag : (C.defaultModel true).tagger.tag [] = []) :
    (NewDocument C "" []).1.Sentences = [] ∧
    (NewDocument C "" []).1.Tokens = [] ∧
    (NewDocument C "" []).2 = none := by
  have hModel : (runTokenize "" (runSegment C ""
      (resolveModel C (initDoc "") (defaultOpts C)) (defaultOpts C))
      (defaultOpts C)).Model = some (C.defaultModel true) := by
    rw [runTokenize_Model, runSegment_Model]
    exact resolveModel_model_none C _ _ rfl
  have hTokens : (runTokenize "" (runSegment C ""
      (resolveModel C (initDoc "") (defaultOpts C)) (defaultOpts C))
      (defaultOpts C)).tokens = [] := by
    rw [runTokenize_some _ _ _ C.NewIterTokenizer rfl, runSegment_tokens,
      resolveModel_tokens, htok]
    rfl
  refine ⟨?_, ?_, rfl⟩
  · show (runTag (runTokenize "" (runSegment C ""
        (resolveModel C (initDoc "") (defaultOpts C)) (defaultOpts C))
        (defaultOpts C)) (defaultOpts C)).Sentences = []
    unfold Document.Sentences
    rw [runTag_sentences, runTokenize_sentences, runSegment_true C "" _ _ rfl, hseg]
  · show (runTag (runTokenize "" (runSegment C ""
        (resolveModel C (initDoc "") (defaultOpts C)) (defaultOpts C))
        (defaultOpts C)) (defaultOpts C)).Tokens = []
    unfold Document.Tokens
    rw [runTag_true _ _ (C.defaultModel true) rfl hModel, hTokens, htag]

/-- Witness for C9: the concrete collaborators `C0` return empty sequences on
empty text and their tagger preserves the empty token list. -/
theorem C9_witness :
    C0.segment "" = [] ∧ C0.NewIterTokenizer.Tokenize "" = [] ∧
    (C0.defaultModel true).tagger.tag [] = [] ∧
    ((NewDocument C0 "" []).1.Sentences = [] ∧ (NewDocument C0 "" []).1.Tokens = [] ∧
     (NewDocument C0 "" []).2 = none) :=
  ⟨rfl, rfl, rfl, C9_empty_input C0 rfl rfl rfl⟩
